import Mathlib

/-!
Verification of the matter2mqtt bridge synchronization engine.

The definitions below are a shallow embedding of the repository's Python
sources (`matter_helpers.py`, `matter2mqtt_app.py`, `matter_commander.py`,
`mqtt_bridge.py`, `topics.py`, `constants.py`).  Python machine-level
details are modelled explicitly: unbounded Python `int` becomes `Int`,
Python dictionaries become association lists in insertion order (a dict
assignment is modelled by prepending, so that a lookup that finds the
first matching entry sees the most recent write), fallible parsing
returns `Option`, and side effects (bus publishes, task cancellations,
channel sends) become explicit event lists.
-/

/-! ## Character and string utilities (Python `str` primitives) -/

/-- Whitespace characters stripped by Python's `str.strip()` and accepted
around a numeral by Python's `int()` (ASCII subset, which is all the
repository's inputs use). -/
def isSpaceChar (c : Char) : Bool :=
  c = ' ' ∨ c = '\t' ∨ c = '\n' ∨ c = '\r' ∨ c = '\x0b' ∨ c = '\x0c'

/-- Python `str.strip()` on a character list. -/
def listStrip (cs : List Char) : List Char :=
  ((cs.dropWhile isSpaceChar).reverse.dropWhile isSpaceChar).reverse

/-- ASCII uppercase of one character (the repository's payloads are ASCII,
so this matches Python `str.upper()` on them). -/
def asciiUpper (c : Char) : Char :=
  if 'a' ≤ c ∧ c ≤ 'z' then Char.ofNat (c.toNat - 32) else c

/-- Python `str.upper()` on a character list (ASCII subset). -/
def listUpper (cs : List Char) : List Char :=
  cs.map asciiUpper

/-- Test whether the first list is an initial segment of the second. -/
def leadsWith : List Char → List Char → Bool
  | [], _ => true
  | _ :: _, [] => false
  | a :: as, b :: bs => a = b && leadsWith as bs

/-- Python's substring test `needle in hay` on character lists. -/
def containsL (n : List Char) : List Char → Bool
  | [] => n.isEmpty
  | c :: rest => leadsWith n (c :: rest) || containsL n rest

/-- Python's substring test `needle in hay` on strings. -/
def strContains (needle hay : String) : Bool :=
  containsL needle.data hay.data

/-- Python `str.startswith` on strings. -/
def strStarts (pre s : String) : Bool :=
  leadsWith pre.data s.data

/-- Python `str.endswith` on strings. -/
def strEnds (suf s : String) : Bool :=
  leadsWith suf.data.reverse s.data.reverse

/-- Python `s.split(sep)` (no maxsplit) on a character list; `""` splits
to `[""]`, exactly as in Python. -/
def splitChar (sep : Char) (cs : List Char) : List (List Char) :=
  cs.foldr
    (fun c acc =>
      match acc with
      | cur :: done => if c = sep then [] :: cur :: done else (c :: cur) :: done
      | [] => [[c]])
    [[]]

/-- Python `s.split(sep)` on strings. -/
def pySplit (sep : Char) (s : String) : List String :=
  (splitChar sep s.data).map (fun cs => ⟨cs⟩)

/-- Join character lists with a separator (Python `sep.join`). -/
def joinParts (sep : Char) : List (List Char) → List Char
  | [] => []
  | [p] => p
  | p :: rest => p ++ sep :: joinParts sep rest

/-! ## Python `int()` and `str()` on integers -/

/-- Value of one decimal digit character. -/
def digitVal (c : Char) : Option Nat :=
  if '0' ≤ c ∧ c ≤ '9' then some (c.toNat - 48) else none

/-- Accumulate decimal digits; fails on any non-digit. -/
def digitsAux : List Char → Nat → Option Nat
  | [], acc => some acc
  | c :: rest, acc =>
    match digitVal c with
    | none => none
    | some d => digitsAux rest (acc * 10 + d)

/-- Parse a non-empty all-digit character list as a natural number. -/
def digitsToNat : List Char → Option Nat
  | [] => none
  | cs => digitsAux cs 0

/-- Python `int(s)` for a decimal string: surrounding whitespace and one
optional sign are accepted, then a non-empty digit run; anything else
raises `ValueError`, modelled as `none`. -/
def pyIntList (cs : List Char) : Option Int :=
  match listStrip cs with
  | '+' :: rest => (digitsToNat rest).map Int.ofNat
  | '-' :: rest => (digitsToNat rest).map (fun n => -(n : Int))
  | rest => (digitsToNat rest).map Int.ofNat

/-- Python `int(s)` on a string. -/
def pyInt (s : String) : Option Int :=
  pyIntList s.data

/-- Decimal digit character of a value below ten. -/
def digitChar (d : Nat) : Char :=
  Char.ofNat (48 + d)

/-- Decimal digits of a natural number, fuelled for structural recursion. -/
def natDigitsAux : Nat → Nat → List Char
  | 0, _ => []
  | fuel + 1, n =>
    if n < 10 then [digitChar n]
    else natDigitsAux fuel (n / 10) ++ [digitChar (n % 10)]

/-- Python `str(n)` for a natural number. -/
def natStr (n : Nat) : String :=
  ⟨natDigitsAux (n + 1) n⟩

/-- Python `str(i)` for an integer (as used by the f-strings building
topics). -/
def intStr : Int → String
  | Int.ofNat n => natStr n
  | Int.negSucc n => "-" ++ natStr (n + 1)

/-! ## constants.py -/

def ONOFF_CLUSTER_ID : Int := 6

def ONOFF_ATTRIBUTE_ID : Int := 0

def HA_DISCOVERY_DEVICE_CLASS : String := "light"

/-! ## models.py -/

/-- Information about a Matter endpoint with OnOff cluster
(`models.EndpointInfo`). -/
structure EndpointInfo where
  node_id : Int
  endpoint : Int
  available : Bool
  onoff : Option Bool
deriving DecidableEq

/-- Command received from MQTT (`models.MqttCommand`); `action` is one of
the strings "on", "off", "toggle" as in the source. -/
structure MqttCommand where
  node_id : Int
  endpoint : Int
  action : String
deriving DecidableEq

/-! ## topics.py -/

/-- MQTT topic for endpoint state. -/
def topic_state (node_id endpoint : Int) : String :=
  "matter/" ++ intStr node_id ++ "/" ++ intStr endpoint ++ "/state"

/-- MQTT topic for endpoint availability. -/
def topic_available (node_id endpoint : Int) : String :=
  "matter/" ++ intStr node_id ++ "/" ++ intStr endpoint ++ "/available"

/-- Home Assistant discovery topic for an endpoint. -/
def ha_discovery_topic (node_id endpoint : Int) : String :=
  "homeassistant/" ++ HA_DISCOVERY_DEVICE_CLASS ++ "/matter_" ++ intStr node_id
    ++ "_" ++ intStr endpoint ++ "/config"

/-! ## matter_helpers.py -/

/-- Parse an attribute key `"<endpoint>/<cluster>/<attribute>"` into its
three integers; the source splits with `key.split("/", 2)`, so a third
slash stays inside the attribute part and makes its `int()` fail.  Any
failure is swallowed and reported as `none`. -/
def parse_attr_key (key : String) : Option (Int × Int × Int) :=
  match pySplit '/' key with
  | a :: b :: c :: rest => do
    let ep ← pyInt a
    let cl ← pyInt b
    let att ← pyIntList (joinParts '/' ((c :: rest).map String.data))
    pure (ep, cl, att)
  | _ => none

/-- One raw node snapshot from the snapshot source: node id, availability
flag and the attribute map in insertion order (the repository only ever
reads boolean attribute values on the claims' paths, so values are
modelled as `Bool`; Python's `bool(v)` is the identity on them). -/
structure NodeSnapshot where
  node_id : Int
  available : Bool
  attributes : List (String × Bool)
deriving DecidableEq

/-- The loop body of `extract_onoff_endpoints_from_node`: walk the
attribute items in order, collecting every endpoint seen with cluster 6
and recording each write to `onoff_state_by_ep` (a dict assignment is a
prepend; a lookup finds the most recent write first). -/
def scanAttrs : List (String × Bool) → List Int × List (Int × Bool) → List Int × List (Int × Bool)
  | [], acc => acc
  | (k, v) :: rest, (eps, st) =>
    match parse_attr_key k with
    | none => scanAttrs rest (eps, st)
    | some (ep, cl, att) =>
      if cl = ONOFF_CLUSTER_ID then
        scanAttrs rest (eps ++ [ep], if att = ONOFF_ATTRIBUTE_ID then (ep, v) :: st else st)
      else scanAttrs rest (eps, st)

/-- Lookup in the modelled `onoff_state_by_ep` dict: the first entry is
the most recent write. -/
def lookupOnOff (st : List (Int × Bool)) (ep : Int) : Option Bool :=
  (st.find? (fun w => w.1 = ep)).map (·.2)

/-- Python `sorted(set(l))`: the distinct elements in ascending order. -/
def sortedNub (l : List Int) : List Int :=
  l.dedup.insertionSort (· ≤ ·)

/-- `matter_helpers.extract_onoff_endpoints_from_node`: endpoints that
have the OnOff cluster (6) in any attribute key, in ascending order, with
the OnOff attribute value (`"<ep>/6/0"`) when one was recorded. -/
def extract_onoff_endpoints_from_node (node : NodeSnapshot) : List EndpointInfo :=
  let scanned := scanAttrs node.attributes ([], [])
  (sortedNub scanned.1).map
    (fun ep => ⟨node.node_id, ep, node.available, lookupOnOff scanned.2 ep⟩)

/-! ## mqtt_bridge.py -/

/-- One retained publish to the message bus
(`MqttBridge.publish_retained`). -/
structure Pub where
  topic : String
  payload : String
deriving DecidableEq

/-- `MqttBridge._on_message`: decode and normalize the payload
(`.strip().upper()`), require the topic shape `matter/<node>/<ep>/set`,
convert the two ids with `int()` (an exception is caught and drops the
message), then map the payload families to an action.  The result is the
command enqueued, or `none` when the message is dropped. -/
def on_message (topic payload : String) : Option MqttCommand :=
  let pl := listUpper (listStrip payload.data)
  match pySplit '/' topic with
  | [p0, p1, p2, p3] =>
    if p0 = "matter" ∧ p3 = "set" then
      match pyInt p1, pyInt p2 with
      | some node_id, some endpoint =>
        if pl = "ON".data ∨ pl = "1".data ∨ pl = "TRUE".data then
          some ⟨node_id, endpoint, "on"⟩
        else if pl = "OFF".data ∨ pl = "0".data ∨ pl = "FALSE".data then
          some ⟨node_id, endpoint, "off"⟩
        else if pl = "TOGGLE".data ∨ pl = "T".data then
          some ⟨node_id, endpoint, "toggle"⟩
        else none
      | _, _ => none
    else none
  | _ => none

/-! ## matter2mqtt_app.py: state cache and refresh -/

/-- The two `last published` dicts of `Matter2MQTT`
(`self.last_avail`, `self.last_state`), keyed by `(node_id, endpoint)`.
A dict assignment prepends; a lookup finds the most recent entry. -/
structure Caches where
  last_avail : List ((Int × Int) × Bool)
  last_state : List ((Int × Int) × Bool)
deriving DecidableEq

/-- Dict lookup `d.get(key)` on a cache map. -/
def getA (m : List ((Int × Int) × Bool)) (k : Int × Int) : Option Bool :=
  (m.find? (fun kv => kv.1 = k)).map (·.2)

/-- JSON object braces (the discovery payload is built exactly as
`json.dumps` renders the dict literal in `publish_ha_discovery`). -/
def jobj (s : String) : String := "\x7b" ++ s ++ "\x7d"

/-- The discovery message of `Matter2MQTT.publish_ha_discovery`. -/
def publish_ha_discovery (ep : EndpointInfo) : Pub :=
  let n := intStr ep.node_id
  let e := intStr ep.endpoint
  ⟨ha_discovery_topic ep.node_id ep.endpoint,
   jobj ("\"name\": \"Matter " ++ n ++ "/" ++ e ++ "\", \"state_topic\": \""
     ++ topic_state ep.node_id ep.endpoint ++ "\", \"command_topic\": \"matter/"
     ++ n ++ "/" ++ e ++ "/set\", \"availability_topic\": \""
     ++ topic_available ep.node_id ep.endpoint
     ++ "\", \"payload_on\": \"ON\", \"payload_off\": \"OFF\", \"unique_id\": \"matter_"
     ++ n ++ "_" ++ e ++ "\", \"device\": "
     ++ jobj ("\"identifiers\": [\"matter_node_" ++ n ++ "\"], \"name\": \"Matter Node "
       ++ n ++ "\", \"manufacturer\": \"Matter\", \"model\": \"OnOff Device\""))⟩

/-- The availability message published for an endpoint. -/
def availability_pub (ep : EndpointInfo) : Pub :=
  ⟨topic_available ep.node_id ep.endpoint, if ep.available then "true" else "false"⟩

/-- The state message published for an endpoint with known on/off `b`. -/
def state_pub (ep : EndpointInfo) (b : Bool) : Pub :=
  ⟨topic_state ep.node_id ep.endpoint, if b then "ON" else "OFF"⟩

/-- One iteration of the availability+state loop of
`Matter2MQTT.refresh_snapshot` for a single endpoint: publish availability
when it differs from the cached value (committing it), then publish state
when the on/off value is known and differs from the cached value
(committing it). -/
def endpoint_pubs (c : Caches) (ep : EndpointInfo) : List Pub × Caches :=
  let key := (ep.node_id, ep.endpoint)
  let apubs :=
    if getA c.last_avail key ≠ some ep.available then [availability_pub ep] else []
  let avail' :=
    if getA c.last_avail key ≠ some ep.available then (key, ep.available) :: c.last_avail
    else c.last_avail
  let spubs :=
    match ep.onoff with
    | none => []
    | some b => if getA c.last_state key ≠ some b then [state_pub ep b] else []
  let state' :=
    match ep.onoff with
    | none => c.last_state
    | some b =>
      if getA c.last_state key ≠ some b then (key, b) :: c.last_state else c.last_state
  (apubs ++ spubs, ⟨avail', state'⟩)

/-- The `for ep in endpoints` loop of `refresh_snapshot` over the cache,
collecting the publishes in order. -/
def publish_loop (c : Caches) : List EndpointInfo → List Pub × Caches
  | [] => ([], c)
  | ep :: rest =>
    let step := endpoint_pubs c ep
    let tail := publish_loop step.2 rest
    (step.1 ++ tail.1, tail.2)

/-- `Matter2MQTT.refresh_snapshot` given the fetched node snapshots:
extract all OnOff endpoints; if none, return with no publish and the
caches untouched; otherwise publish a discovery message for every
endpoint, then run the availability/state loop. -/
def refresh_snapshot (c : Caches) (nodes : List NodeSnapshot) : List Pub × Caches :=
  let endpoints := (nodes.map extract_onoff_endpoints_from_node).flatten
  if endpoints.isEmpty then ([], c)
  else
    let looped := publish_loop c endpoints
    (endpoints.map publish_ha_discovery ++ looped.1, looped.2)

/-! ## matter2mqtt_app.py: command consumer -/

/-- The optimistic publish of `Matter2MQTT.command_consumer_task`: for an
`on`/`off` command the desired state is published to the state topic
immediately; any other action publishes nothing. -/
def optimistic_pubs (cmd : MqttCommand) : List Pub :=
  if cmd.action = "on" ∨ cmd.action = "off" then
    [⟨topic_state cmd.node_id cmd.endpoint, if cmd.action = "on" then "ON" else "OFF"⟩]
  else []

/-- Observable actions of one consumer iteration before the confirmatory
refresh. -/
inductive ConsEvent where
  | pub (p : Pub)
  | dispatch (node_id endpoint : Int) (action : String)
deriving DecidableEq

/-- The portion of one `command_consumer_task` iteration from dequeue up
to the device send: the optimistic publish (if any) happens first, then —
when the commander client is connected — the command is dispatched to the
channel.  The `last_state`/`last_avail` caches are returned so the claim
about their (non-)mutation is explicit; the confirmatory refresh that
follows a successful send is `refresh_snapshot` itself. -/
def command_consumer_step (c : Caches) (connected : Bool) (cmd : MqttCommand) :
    List ConsEvent × Caches :=
  ((optimistic_pubs cmd).map ConsEvent.pub
     ++ (if connected then [ConsEvent.dispatch cmd.node_id cmd.endpoint cmd.action] else []),
   c)

/-! ## matter2mqtt_app.py: stop -/

/-- The observable actions of `Matter2MQTT.stop`. -/
inductive StopEvent where
  | cancelTask (i : Nat)
  | awaitTask (i : Nat)
  | closeMqtt
  | closeMatterWs
  | closeMatterCmd
deriving DecidableEq

/-- The bridge state relevant to `stop`: the `running` flag and how many
tasks were launched. -/
structure BridgeState where
  running : Bool
  taskCount : Nat
deriving DecidableEq

/-- `Matter2MQTT.stop`: return immediately when not running; otherwise
clear the flag, cancel and await every task (cancellation and any other
task failure swallowed), then close the bus, the snapshot source and the
command channel, each close attempted independently. -/
def stop (s : BridgeState) : List StopEvent × BridgeState :=
  if s.running then
    ((List.range s.taskCount).map StopEvent.cancelTask
       ++ (List.range s.taskCount).map StopEvent.awaitTask
       ++ [StopEvent.closeMqtt, StopEvent.closeMatterWs, StopEvent.closeMatterCmd],
     { s with running := false })
  else ([], s)

/-! ## matter_commander.py -/

/-- A Python exception as the commander observes it: `str(e)` and
`type(e).__name__`. -/
structure PyErr where
  msg : String
  typeName : String
deriving DecidableEq

/-- `MatterCommander.set_onoff`'s connection-loss classification:
`"Not connected" in str(e) or "InvalidState" in type(e).__name__`. -/
def is_conn_loss (e : PyErr) : Bool :=
  strContains "Not connected" e.msg || strContains "InvalidState" e.typeName

/-- Observable actions of one `set_onoff` call. -/
inductive CmdEvent where
  | sendAttempt (timeout : Int)
  | reconnect
deriving DecidableEq

/-- The behaviour of the environment during one `set_onoff` call: the
outcome of the first send, of the reconnect inside
`_reconnect_and_retry`, and of the retried send. -/
instance : DecidableEq (Except PyErr Unit) := fun a b =>
  match a, b with
  | Except.ok (), Except.ok () => isTrue rfl
  | Except.error e1, Except.error e2 =>
    if h : e1 = e2 then isTrue (by rw [h]) else isFalse (fun hh => by cases hh; exact h rfl)
  | Except.ok _, Except.error _ => isFalse (fun hh => by cases hh)
  | Except.error _, Except.ok _ => isFalse (fun hh => by cases hh)

structure CommandChannelEnv where
  first : Except PyErr Unit
  reconnectResult : Except PyErr Unit
  second : Except PyErr Unit
deriving DecidableEq

/-- `MatterCommander.set_onoff` (assuming a connected client): validate
the action (`ValueError` otherwise, before any send), attempt the send
bounded by `timeout`; on a failure classified as connection loss run
`_reconnect_and_retry` — discard the handle, reconnect (a reconnect
failure propagates with no retry), then retry the same send once with the
same timeout, whose outcome is final; any other failure is surfaced
immediately. -/
def set_onoff (env : CommandChannelEnv) (action : String) (timeout : Int) :
    List CmdEvent × Except PyErr Unit :=
  if ¬(action = "on" ∨ action = "off" ∨ action = "toggle") then
    ([], Except.error ⟨"Invalid action: " ++ action, "ValueError"⟩)
  else
    match env.first with
    | Except.ok _ => ([CmdEvent.sendAttempt timeout], Except.ok ())
    | Except.error e =>
      if is_conn_loss e then
        match env.reconnectResult with
        | Except.error re =>
          ([CmdEvent.sendAttempt timeout, CmdEvent.reconnect], Except.error re)
        | Except.ok _ =>
          ([CmdEvent.sendAttempt timeout, CmdEvent.reconnect, CmdEvent.sendAttempt timeout],
           env.second)
      else ([CmdEvent.sendAttempt timeout], Except.error e)

/-! ## Claim-side definitions (phrased from the specification's words) -/

/-- The endpoint named by an attribute entry whose key has the on/off
cluster id, if any. -/
def keyEp (kv : String × Bool) : Option Int :=
  match parse_attr_key kv.1 with
  | some (ep, cl, _) => if cl = ONOFF_CLUSTER_ID then some ep else none
  | none => none

/-- The on/off state write carried by an attribute entry: its endpoint
and value when the key parses to cluster 6, attribute 0. -/
def onoffWrite (kv : String × Bool) : Option (Int × Bool) :=
  match parse_attr_key kv.1 with
  | some (ep, cl, att) =>
    if cl = ONOFF_CLUSTER_ID ∧ att = ONOFF_ATTRIBUTE_ID then some (ep, kv.2) else none
  | none => none

/-- The boolean value of the last attribute in the map whose key parses
to `(ep, 6, 0)`, when any such attribute is present. -/
def lastOnOffAt (attrs : List (String × Bool)) (ep : Int) : Option Bool :=
  (attrs.filterMap (fun kv =>
    if parse_attr_key kv.1 = some (ep, ONOFF_CLUSTER_ID, ONOFF_ATTRIBUTE_ID)
    then some kv.2 else none)).getLast?

/-- The specification's novelty condition for one cache key: the new
value differs from, or is absent from, the cached last-published value. -/
def novel (cache : List ((Int × Int) × Bool)) (k : Int × Int) (v : Bool) : Prop :=
  getA cache k = none ∨ ∃ b, getA cache k = some b ∧ b ≠ v

/-- The claimed strict three-phase publication order of one refresh:
first every discovery message, then every availability message, then
every state message. -/
def strictly_phase_ordered (l : List Pub) : Prop :=
  l = l.filter (fun p => strStarts "homeassistant/" p.topic)
    ++ l.filter (fun p => strEnds "/available" p.topic)
    ++ l.filter (fun p => strEnds "/state" p.topic)

/-- The claimed recognized payload families, after the claimed
case-normalization only: `ON`/`1`/`TRUE` map to on, `OFF`/`0`/`FALSE` to
off, `TOGGLE`/`T` to toggle. -/
def recognizedAction (pl : List Char) : Option String :=
  if pl = "ON".data ∨ pl = "1".data ∨ pl = "TRUE".data then some "on"
  else if pl = "OFF".data ∨ pl = "0".data ∨ pl = "FALSE".data then some "off"
  else if pl = "TOGGLE".data ∨ pl = "T".data then some "toggle"
  else none

/-! ## Helper lemmas -/

theorem find?_eq_head?_filter {α : Type} (p : α → Bool) (l : List α) :
    l.find? p = (l.filter p).head? := by
  induction l with
  | nil => rfl
  | cons a t ih =>
    cases hp : p a with
    | true => rw [List.find?_cons_of_pos _ hp, List.filter_cons_of_pos hp, List.head?_cons]
    | false =>
      rw [List.find?_cons_of_neg _ (by simp [hp]), List.filter_cons_of_neg (by simp [hp]), ih]

theorem find?_reverse_eq_getLast?_filter {α : Type} (p : α → Bool) (l : List α) :
    l.reverse.find? p = (l.filter p).getLast? := by
  rw [find?_eq_head?_filter, List.filter_reverse, List.head?_reverse]

theorem scanAttrs_eps (attrs : List (String × Bool)) (eps : List Int)
    (st : List (Int × Bool)) :
    (scanAttrs attrs (eps, st)).1 = eps ++ attrs.filterMap keyEp := by
  induction attrs generalizing eps st with
  | nil => simp [scanAttrs]
  | cons kv rest ih =>
    obtain ⟨k, v⟩ := kv
    simp only [scanAttrs, List.filterMap_cons]
    cases hp : parse_attr_key k with
    | none => simp [ih, keyEp, hp]
    | some t =>
      obtain ⟨ep, cl, att⟩ := t
      by_cases hcl : cl = ONOFF_CLUSTER_ID
      · simp [hcl, ih, keyEp, hp]
      · simp [hcl, ih, keyEp, hp]

theorem scanAttrs_st (attrs : List (String × Bool)) (eps : List Int)
    (st : List (Int × Bool)) :
    (scanAttrs attrs (eps, st)).2 = (attrs.filterMap onoffWrite).reverse ++ st := by
  induction attrs generalizing eps st with
  | nil => simp [scanAttrs]
  | cons kv rest ih =>
    obtain ⟨k, v⟩ := kv
    simp only [scanAttrs, List.filterMap_cons]
    cases hp : parse_attr_key k with
    | none => simp [ih, onoffWrite, hp]
    | some t =>
      obtain ⟨ep, cl, att⟩ := t
      by_cases hcl : cl = ONOFF_CLUSTER_ID
      · by_cases hat : att = ONOFF_ATTRIBUTE_ID
        · simp [hcl, hat, ih, onoffWrite, hp]
        · simp [hcl, hat, ih, onoffWrite, hp]
      · simp [hcl, ih, onoffWrite, hp]

/-! ## C6 -/

/-- C6: endpoint extraction is total by construction, and an attribute
entry whose key is malformed (it fails to parse) is skipped: removing it
from the snapshot changes nothing in the extracted records. -/
theorem extraction_skips_malformed_key (node_id : Int) (available : Bool)
    (k : String) (v : Bool) (pre post : List (String × Bool))
    (h : parse_attr_key k = none) :
    extract_onoff_endpoints_from_node ⟨node_id, available, pre ++ (k, v) :: post⟩ =
      extract_onoff_endpoints_from_node ⟨node_id, available, pre ++ post⟩ := by
  have hscan : ∀ acc, scanAttrs (pre ++ (k, v) :: post) acc = scanAttrs (pre ++ post) acc := by
    intro acc
    induction pre generalizing acc with
    | nil => obtain ⟨eps, st⟩ := acc; simp [scanAttrs, h]
    | cons kv rest ih =>
      obtain ⟨k', v'⟩ := kv
      obtain ⟨eps, st⟩ := acc
      simp only [List.cons_append, scanAttrs]
      cases parse_attr_key k' with
      | none => exact ih _
      | some t =>
        obtain ⟨ep, cl, att⟩ := t
        by_cases hcl : cl = ONOFF_CLUSTER_ID
        · simp only [hcl, if_pos rfl]; exact ih _
        · simp only [if_neg hcl]; exact ih _
  unfold extract_onoff_endpoints_from_node
  rw [hscan]

/-- Witness for C6 at the spec's own examples of malformed keys, "abc"
and "1/6". -/
theorem extraction_skips_malformed_key_witness :
    parse_attr_key "abc" = none ∧ parse_attr_key "1/6" = none ∧
    extract_onoff_endpoints_from_node ⟨1, true, [("abc", true), ("2/6/0", false)]⟩ =
      extract_onoff_endpoints_from_node ⟨1, true, [("2/6/0", false)]⟩ ∧
    extract_onoff_endpoints_from_node ⟨1, true, [("2/6/0", false), ("1/6", true)]⟩ =
      extract_onoff_endpoints_from_node ⟨1, true, [("2/6/0", false)]⟩ :=
  ⟨by decide, by decide,
   extraction_skips_malformed_key 1 true "abc" true [] [("2/6/0", false)] (by decide),
   extraction_skips_malformed_key 1 true "1/6" true [("2/6/0", false)] [] (by decide)⟩

/-! ## C7 -/

/-- C7: a refresh whose extraction over all fetched nodes yields no
endpoint returns normally, publishes nothing, and leaves both cache maps
unchanged. -/
theorem refresh_empty_endpoints (c : Caches) (nodes : List NodeSnapshot)
    (h : (nodes.map extract_onoff_endpoints_from_node).flatten = []) :
    refresh_snapshot c nodes = ([], c) := by
  unfold refresh_snapshot
  simp [h]

/-- Witness for C7: a non-empty snapshot whose keys are either malformed
or on a non-on/off cluster extracts no endpoint, so a refresh over it
publishes nothing and leaves non-trivial caches untouched. -/
theorem refresh_empty_endpoints_witness :
    (([⟨3, false, [("abc", true), ("1/5/0", true)]⟩] : List NodeSnapshot).map
        extract_onoff_endpoints_from_node).flatten = [] ∧
    refresh_snapshot ⟨[((1, 2), true)], [((1, 2), false)]⟩
        [⟨3, false, [("abc", true), ("1/5/0", true)]⟩] =
      ([], ⟨[((1, 2), true)], [((1, 2), false)]⟩) :=
  ⟨by decide, refresh_empty_endpoints _ _ (by decide)⟩

/-! ## C8 -/

/-- C8: `stop` is idempotent — after one completed call every further
call performs no task cancellation and no close on any resource, changes
nothing and raises no error (the event list of the second call is empty
and the state is unchanged). -/
theorem stop_idempotent (s : BridgeState) :
    stop (stop s).2 = ([], (stop s).2) := by
  unfold stop
  by_cases h : s.running <;> simp [h]

/-! ## C10 -/

/-- C10: only `on`/`off` commands trigger the optimistic state publish,
and it happens before the dispatch to the command channel; a `toggle`
command is dispatched with no optimistic publish at all. -/
theorem toggle_no_optimistic_publish (c : Caches) (connected : Bool) (cmd : MqttCommand) :
    (cmd.action = "toggle" →
      optimistic_pubs cmd = [] ∧
      (command_consumer_step c connected cmd).1 =
        (if connected then [ConsEvent.dispatch cmd.node_id cmd.endpoint cmd.action] else [])) ∧
    (optimistic_pubs cmd ≠ [] → (cmd.action = "on" ∨ cmd.action = "off")) ∧
    ((cmd.action = "on" ∨ cmd.action = "off") →
      (command_consumer_step c true cmd).1 =
        [ConsEvent.pub ⟨topic_state cmd.node_id cmd.endpoint,
            if cmd.action = "on" then "ON" else "OFF"⟩,
         ConsEvent.dispatch cmd.node_id cmd.endpoint cmd.action]) := by
  refine ⟨?_, ?_, ?_⟩
  · intro h
    have hno : ¬(cmd.action = "on" ∨ cmd.action = "off") := by
      rw [h]; decide
    constructor
    · unfold optimistic_pubs
      rw [if_neg hno]
    · unfold command_consumer_step optimistic_pubs
      rw [if_neg hno]
      simp
  · intro h
    by_contra hno
    apply h
    unfold optimistic_pubs
    rw [if_neg hno]
  · intro h
    unfold command_consumer_step optimistic_pubs
    rw [if_pos h]
    simp

/-- Witness for C10 at a toggle command and at an on command. -/
theorem toggle_no_optimistic_publish_witness :
    optimistic_pubs ⟨7, 8, "toggle"⟩ = [] ∧
    (command_consumer_step ⟨[], []⟩ true ⟨7, 8, "on"⟩).1 =
      [ConsEvent.pub ⟨topic_state 7 8, "ON"⟩, ConsEvent.dispatch 7 8 "on"] :=
  ⟨((toggle_no_optimistic_publish ⟨[], []⟩ true ⟨7, 8, "toggle"⟩).1 rfl).1,
   (toggle_no_optimistic_publish ⟨[], []⟩ true ⟨7, 8, "on"⟩).2.2 (Or.inl rfl)⟩

/-! ## C9 -/

/-- C9: the optimistic publish of the command consumer commits nothing to
the state cache — the caches are returned unchanged — so a subsequent
refresh decides against the last poller-published value; concretely, with
`last_state[(1,3)] = false`, processing the command `on` for endpoint
`(1,3)` optimistically publishes "ON" to `matter/1/3/state` without
touching the cache, and a following refresh that observes `onoff = true`
republishes that very message. -/
theorem optimistic_publish_no_cache_update (c : Caches) (connected : Bool) (cmd : MqttCommand) :
    (command_consumer_step c connected cmd).2 = c ∧
    (command_consumer_step ⟨[((1, 3), true)], [((1, 3), false)]⟩ true ⟨1, 3, "on"⟩).1 =
      [ConsEvent.pub ⟨topic_state 1 3, "ON"⟩, ConsEvent.dispatch 1 3 "on"] ∧
    (⟨topic_state 1 3, "ON"⟩ : Pub) ∈
      (refresh_snapshot ⟨[((1, 3), true)], [((1, 3), false)]⟩
        [⟨1, true, [("3/6/0", true)]⟩]).1 := by
  refine ⟨rfl, by decide, by decide⟩

/-! ## C3 -/

/-- C3 (counterexample): a first send failure whose message contains
"not connected" in the claim's lower-case spelling is not classified as
connection loss by the code, which matches the case-sensitive substring
"Not connected"; the call performs no reconnect and no retry and
surfaces the error immediately. -/
theorem send_lowercase_not_connected_no_retry :
    strContains "not connected" "device not connected" = true ∧
    is_conn_loss ⟨"device not connected", "RuntimeError"⟩ = false ∧
    set_onoff ⟨Except.error ⟨"device not connected", "RuntimeError"⟩, Except.ok (), Except.ok ()⟩
        "on" 15 =
      ([CmdEvent.sendAttempt 15],
       Except.error ⟨"device not connected", "RuntimeError"⟩) := by
  refine ⟨by decide, by decide, by decide⟩

/-- C3 (amended): with connection loss classified as the code does
(case-sensitive "Not connected" in the message, or "InvalidState" in the
error type name), a classified first failure triggers exactly one
reconnect; when the reconnect succeeds the send is retried exactly once
with the same timeout and the retry's outcome — success or failure — is
final, with no third attempt; when the reconnect itself fails, its error
propagates with no retry; an unclassified failure is surfaced
immediately with no reconnect and no retry. -/
theorem send_retry_discipline (env : CommandChannelEnv) (action : String) (t : Int)
    (e : PyErr) (hact : action = "on" ∨ action = "off" ∨ action = "toggle")
    (hfirst : env.first = Except.error e) :
    (is_conn_loss e = true →
      (env.reconnectResult = Except.ok () →
        set_onoff env action t =
          ([CmdEvent.sendAttempt t, CmdEvent.reconnect, CmdEvent.sendAttempt t],
           env.second)) ∧
      (∀ re, env.reconnectResult = Except.error re →
        set_onoff env action t =
          ([CmdEvent.sendAttempt t, CmdEvent.reconnect], Except.error re))) ∧
    (is_conn_loss e = false →
      set_onoff env action t = ([CmdEvent.sendAttempt t], Except.error e)) := by
  unfold set_onoff
  rw [if_neg (not_not_intro hact), hfirst]
  dsimp only
  constructor
  · intro hloss
    rw [hloss, if_pos rfl]
    constructor
    · intro hrec
      rw [hrec]
    · intro re hrec
      rw [hrec]
  · intro hloss
    rw [hloss]
    simp

/-- Witness for C3 (amended): a first failure carrying "Not connected"
reconnects once, retries once with the same timeout, and the retry's
failure is surfaced with no third attempt. -/
theorem send_retry_discipline_witness :
    is_conn_loss ⟨"Transport Not connected", "Exception"⟩ = true ∧
    set_onoff ⟨Except.error ⟨"Transport Not connected", "Exception"⟩, Except.ok (),
        Except.error ⟨"still down", "Exception"⟩⟩ "on" 15 =
      ([CmdEvent.sendAttempt 15, CmdEvent.reconnect, CmdEvent.sendAttempt 15],
       Except.error ⟨"still down", "Exception"⟩) :=
  ⟨by decide,
   ((send_retry_discipline
       ⟨Except.error ⟨"Transport Not connected", "Exception"⟩, Except.ok (),
        Except.error ⟨"still down", "Exception"⟩⟩
       "on" 15 ⟨"Transport Not connected", "Exception"⟩ (Or.inl rfl) rfl).1
     (by decide)).1 rfl⟩

/-! ## C5 -/

/-- C5 (counterexample): the code strips surrounding whitespace from the
payload before matching, so the payload " ON" — which is outside the
claimed case-insensitive families — still enqueues one command. -/
theorem on_message_strips_whitespace :
    recognizedAction (listUpper (" ON" : String).data) = none ∧
    on_message "matter/42/3/set" " ON" = some ⟨42, 3, "on"⟩ := by
  refine ⟨by decide, by decide⟩

/-- C5 (amended): a message enqueues exactly one command if and only if
its topic splits into exactly the four segments `matter/<d>/<e>/set` with
both ids accepted by Python `int()`, and its payload — after stripping
surrounding whitespace and case-normalizing — falls in a recognized
family; the enqueued command carries exactly the parsed ids and the
family's action.  Every other message enqueues nothing (and raises no
error: the handler is total). -/
theorem on_message_characterization (topic payload : String) (cmd : MqttCommand) :
    on_message topic payload = some cmd ↔
      ∃ d e, pySplit '/' topic = ["matter", d, e, "set"] ∧
        pyInt d = some cmd.node_id ∧ pyInt e = some cmd.endpoint ∧
        recognizedAction (listUpper (listStrip payload.data)) = some cmd.action := by
  obtain ⟨cn, ce, ca⟩ := cmd
  constructor
  · intro h
    revert h
    unfold on_message
    split
    next p0 p1 p2 p3 heq =>
      split_ifs with hguard
      · obtain ⟨hm, hs⟩ := hguard
        subst hm hs
        split
        next n e hn he =>
          dsimp only
          intro h
          refine ⟨p1, p2, heq, ?_⟩
          revert h
          split_ifs with h1 h2 h3 <;> intro h <;>
            simp only [Option.some.injEq, MqttCommand.mk.injEq] at h <;>
            obtain ⟨hn', he', ha'⟩ := h
          · subst hn' he' ha'
            exact ⟨hn, he, by rw [recognizedAction, if_pos h1]⟩
          · subst hn' he' ha'
            exact ⟨hn, he, by rw [recognizedAction, if_neg h1, if_pos h2]⟩
          · subst hn' he' ha'
            exact ⟨hn, he, by rw [recognizedAction, if_neg h1, if_neg h2, if_pos h3]⟩
        next hn =>
          intro h
          exact absurd h (by simp)
      · intro h
        exact absurd h (by simp)
    next hsh =>
      intro h
      exact absurd h (by simp)
  · rintro ⟨d, e, hsplit, hd, he, hact⟩
    unfold on_message
    rw [hsplit]
    dsimp only
    rw [if_pos ⟨rfl, rfl⟩, hd, he]
    dsimp only
    revert hact
    unfold recognizedAction
    split_ifs with h1 h2 h3 <;> intro hact
    · simp only [Option.some.injEq] at hact
      rw [hact]
    · simp only [Option.some.injEq] at hact
      rw [hact]
    · simp only [Option.some.injEq] at hact
      rw [hact]
    · simp at hact

/-- Witness for C5 (amended): the spec's positive example in both
directions at `matter/42/3/set` with payload "on". -/
theorem on_message_characterization_witness :
    on_message "matter/42/3/set" "on" = some ⟨42, 3, "on"⟩ ↔
      ∃ d e, pySplit '/' ("matter/42/3/set" : String) = ["matter", d, e, "set"] ∧
        pyInt d = some (42 : Int) ∧ pyInt e = some (3 : Int) ∧
        recognizedAction (listUpper (listStrip ("on" : String).data)) = some "on" :=
  on_message_characterization "matter/42/3/set" "on" ⟨42, 3, "on"⟩

/-! ## C2 -/

theorem avail_ne_state (ep ep' : EndpointInfo) (b : Bool) :
    availability_pub ep ≠ state_pub ep' b := by
  obtain ⟨n0, e0, av, oo⟩ := ep
  intro h
  have hp := congrArg Pub.payload h
  unfold availability_pub state_pub at hp
  dsimp only at hp
  cases av <;> cases b <;> exact absurd hp (by decide)

theorem novel_iff (cache : List ((Int × Int) × Bool)) (k : Int × Int) (v : Bool) :
    novel cache k v ↔ getA cache k ≠ some v := by
  unfold novel
  cases h : getA cache k with
  | none => simp [h]
  | some b => simp [h]

theorem getA_cons_self (m : List ((Int × Int) × Bool)) (k : Int × Int) (v : Bool) :
    getA ((k, v) :: m) k = some v := by
  unfold getA
  rw [List.find?_cons_of_pos _ (by simp)]
  rfl

theorem avail_mem_append_state (ep ep' : EndpointInfo) (b : Bool) (l : List Pub) :
    availability_pub ep ∈ l ++ [state_pub ep' b] ↔ availability_pub ep ∈ l := by
  rw [List.mem_append, List.mem_singleton]
  constructor
  · rintro (h | h)
    · exact h
    · exact absurd h (avail_ne_state ep ep' b)
  · exact Or.inl

theorem state_mem_cons_avail (ep ep' : EndpointInfo) (b : Bool) (l : List Pub) :
    state_pub ep b ∈ availability_pub ep' :: l ↔ state_pub ep b ∈ l := by
  rw [List.mem_cons]
  constructor
  · rintro (h | h)
    · exact absurd h.symm (avail_ne_state ep' ep b)
    · exact h
  · exact Or.inr

/-- C2: within a refresh, the per-endpoint publication step is gated by
the cache and commits what it publishes: an availability message is
published iff the observed value differs from, or is absent from, the
cached value for that exact key, after which the cache holds the observed
value (and is untouched when nothing was published); independently, the
same holds for the on/off value when it is known, while an unknown on/off
publishes no state message and leaves the state cache unchanged; finally
the state decision and commit depend only on the state cache and the
availability decision and commit only on the availability cache, so an
availability-only change never triggers a state publish nor vice versa. -/
theorem cache_gated_publication (c : Caches) (ep : EndpointInfo) :
    ((availability_pub ep ∈ (endpoint_pubs c ep).1) ↔
      novel c.last_avail (ep.node_id, ep.endpoint) ep.available) ∧
    getA (endpoint_pubs c ep).2.last_avail (ep.node_id, ep.endpoint) = some ep.available ∧
    (¬ novel c.last_avail (ep.node_id, ep.endpoint) ep.available →
      (endpoint_pubs c ep).2.last_avail = c.last_avail) ∧
    (∀ b, ep.onoff = some b →
      (((state_pub ep b ∈ (endpoint_pubs c ep).1) ↔
         novel c.last_state (ep.node_id, ep.endpoint) b) ∧
       getA (endpoint_pubs c ep).2.last_state (ep.node_id, ep.endpoint) = some b ∧
       (¬ novel c.last_state (ep.node_id, ep.endpoint) b →
         (endpoint_pubs c ep).2.last_state = c.last_state))) ∧
    (ep.onoff = none →
      (endpoint_pubs c ep).2.last_state = c.last_state ∧
      ∀ p ∈ (endpoint_pubs c ep).1, p = availability_pub ep) ∧
    (∀ c2 : Caches, c2.last_state = c.last_state →
      (endpoint_pubs c2 ep).2.last_state = (endpoint_pubs c ep).2.last_state ∧
      ∀ b, ((state_pub ep b ∈ (endpoint_pubs c2 ep).1) ↔
        (state_pub ep b ∈ (endpoint_pubs c ep).1))) ∧
    (∀ c2 : Caches, c2.last_avail = c.last_avail →
      (endpoint_pubs c2 ep).2.last_avail = (endpoint_pubs c ep).2.last_avail ∧
      ((availability_pub ep ∈ (endpoint_pubs c2 ep).1) ↔
        (availability_pub ep ∈ (endpoint_pubs c ep).1))) := by
  refine ⟨?_, ?_, ?_, ?_, ?_, ?_, ?_⟩
  · rw [novel_iff]
    unfold endpoint_pubs
    dsimp only
    by_cases ha : getA c.last_avail (ep.node_id, ep.endpoint) = some ep.available
    · rw [if_neg (not_not_intro ha), List.nil_append]
      constructor
      · intro hm
        exfalso
        revert hm
        cases ho : ep.onoff with
        | none => simp
        | some b =>
          dsimp only
          by_cases hs : getA c.last_state (ep.node_id, ep.endpoint) = some b
          · rw [if_neg (not_not_intro hs)]
            simp
          · rw [if_pos hs]
            intro hm
            exact avail_ne_state ep ep b (List.mem_singleton.1 hm)
      · intro hcontra
        exact absurd ha hcontra
    · rw [if_pos ha]
      exact iff_of_true (List.mem_append.2 (Or.inl (List.mem_singleton.2 rfl))) ha
  · unfold endpoint_pubs
    dsimp only
    by_cases ha : getA c.last_avail (ep.node_id, ep.endpoint) = some ep.available
    · rw [if_neg (not_not_intro ha)]
      exact ha
    · rw [if_pos ha]
      exact getA_cons_self _ _ _
  · intro hnov
    rw [novel_iff, not_not] at hnov
    unfold endpoint_pubs
    dsimp only
    rw [if_neg (not_not_intro hnov)]
  · intro b hb
    refine ⟨?_, ?_, ?_⟩
    · rw [novel_iff]
      unfold endpoint_pubs
      dsimp only
      rw [hb]
      dsimp only
      by_cases hs : getA c.last_state (ep.node_id, ep.endpoint) = some b
      · rw [if_neg (not_not_intro hs), List.append_nil]
        constructor
        · intro hm
          exfalso
          revert hm
          by_cases ha : getA c.last_avail (ep.node_id, ep.endpoint) = some ep.available
          · rw [if_neg (not_not_intro ha)]
            simp
          · rw [if_pos ha]
            intro hm
            exact avail_ne_state ep ep b (List.mem_singleton.1 hm).symm
        · intro hcontra
          exact absurd hs hcontra
      · rw [if_pos hs]
        exact iff_of_true (List.mem_append.2 (Or.inr (List.mem_singleton.2 rfl))) hs
    · unfold endpoint_pubs
      dsimp only
      rw [hb]
      dsimp only
      by_cases hs : getA c.last_state (ep.node_id, ep.endpoint) = some b
      · rw [if_neg (not_not_intro hs)]
        exact hs
      · rw [if_pos hs]
        exact getA_cons_self _ _ _
    · intro hnov
      rw [novel_iff, not_not] at hnov
      unfold endpoint_pubs
      dsimp only
      rw [hb]
      dsimp only
      rw [if_neg (not_not_intro hnov)]
  · intro ho
    unfold endpoint_pubs
    dsimp only
    rw [ho]
    dsimp only
    refine ⟨rfl, ?_⟩
    intro p hp
    rw [List.append_nil] at hp
    revert hp
    by_cases ha : getA c.last_avail (ep.node_id, ep.endpoint) = some ep.available
    · rw [if_neg (not_not_intro ha)]
      intro hp
      simp at hp
    · rw [if_pos ha]
      intro hp
      exact List.mem_singleton.1 hp
  · intro c2 h2
    unfold endpoint_pubs
    dsimp only
    rw [h2]
    refine ⟨rfl, ?_⟩
    intro b
    by_cases ha2 : getA c2.last_avail (ep.node_id, ep.endpoint) = some ep.available <;>
      by_cases ha : getA c.last_avail (ep.node_id, ep.endpoint) = some ep.available
    · rw [if_neg (not_not_intro ha2), if_neg (not_not_intro ha)]
    · rw [if_neg (not_not_intro ha2), if_pos ha, List.nil_append, List.singleton_append,
        state_mem_cons_avail]
    · rw [if_pos ha2, if_neg (not_not_intro ha), List.nil_append, List.singleton_append,
        state_mem_cons_avail]
    · rw [if_pos ha2, if_pos ha, List.singleton_append, state_mem_cons_avail]
  · intro c2 h2
    unfold endpoint_pubs
    dsimp only
    rw [h2]
    refine ⟨rfl, ?_⟩
    cases ho : ep.onoff with
    | none =>
      dsimp only
      exact Iff.rfl
    | some b =>
      dsimp only
      by_cases hs2 : getA c2.last_state (ep.node_id, ep.endpoint) = some b <;>
        by_cases hs : getA c.last_state (ep.node_id, ep.endpoint) = some b
      · rw [if_neg (not_not_intro hs2), if_neg (not_not_intro hs)]
      · rw [if_neg (not_not_intro hs2), if_pos hs, avail_mem_append_state, List.append_nil]
      · rw [if_pos hs2, if_neg (not_not_intro hs), avail_mem_append_state, List.append_nil]
      · rw [if_pos hs2, if_pos hs, avail_mem_append_state]

/-- Witness for C2: with the availability cache empty and the state cache
already holding `true` for key `(1,2)`, the step publishes availability
(absent from cache) and suppresses the state republish (equal value). -/
theorem cache_gated_publication_witness :
    ((⟨1, 2, true, some true⟩ : EndpointInfo).onoff = some true) ∧
    ((state_pub ⟨1, 2, true, some true⟩ true ∈
        (endpoint_pubs ⟨[], [((1, 2), true)]⟩ ⟨1, 2, true, some true⟩).1) ↔
      novel [((1, 2), true)] (1, 2) true) ∧
    ((availability_pub ⟨1, 2, true, some true⟩ ∈
        (endpoint_pubs ⟨[], [((1, 2), true)]⟩ ⟨1, 2, true, some true⟩).1) ↔
      novel [] (1, 2) true) :=
  ⟨rfl,
   (((cache_gated_publication ⟨[], [((1, 2), true)]⟩ ⟨1, 2, true, some true⟩).2.2.2.1
       true rfl).1),
   (cache_gated_publication ⟨[], [((1, 2), true)]⟩ ⟨1, 2, true, some true⟩).1⟩

/-! ## C1 -/

set_option maxRecDepth 4000 in
/-- C1 (counterexample): with two fresh endpoints in one snapshot, the
refresh publishes discovery for both, but then interleaves availability
and state per endpoint (`A1 S1 A2 S2`), so the first endpoint's state
message precedes the second endpoint's availability message and the
claimed strict discovery→availability→state phase order is violated. -/
theorem refresh_interleaves_avail_and_state :
    ¬ strictly_phase_ordered
        (refresh_snapshot ⟨[], []⟩ [⟨1, true, [("1/6/0", true), ("2/6/0", true)]⟩]).1 := by
  unfold strictly_phase_ordered
  decide

theorem publish_loop_blocks (eps : List EndpointInfo) (c : Caches) :
    ∃ blocks : List (List Pub),
      (publish_loop c eps).1 = blocks.flatten ∧
      List.Forall₂ (fun (ep : EndpointInfo) (blk : List Pub) =>
        ∃ a s, blk = a ++ s ∧ (a = [] ∨ a = [availability_pub ep]) ∧
          (s = [] ∨ ∃ b, ep.onoff = some b ∧ s = [state_pub ep b])) eps blocks := by
  induction eps generalizing c with
  | nil => exact ⟨[], rfl, List.Forall₂.nil⟩
  | cons ep rest ih =>
    obtain ⟨blocks, hflat, hall⟩ := ih (endpoint_pubs c ep).2
    refine ⟨(endpoint_pubs c ep).1 :: blocks, ?_, ?_⟩
    · simp only [publish_loop, List.flatten_cons]
      rw [hflat]
    · refine List.Forall₂.cons ?_ hall
      unfold endpoint_pubs
      dsimp only
      refine ⟨_, _, rfl, ?_, ?_⟩
      · by_cases ha : getA c.last_avail (ep.node_id, ep.endpoint) = some ep.available
        · rw [if_neg (not_not_intro ha)]
          exact Or.inl rfl
        · rw [if_pos ha]
          exact Or.inr rfl
      · cases ho : ep.onoff with
        | none =>
          dsimp only
          exact Or.inl rfl
        | some b =>
          dsimp only
          by_cases hs : getA c.last_state (ep.node_id, ep.endpoint) = some b
          · rw [if_neg (not_not_intro hs)]
            exact Or.inl rfl
          · rw [if_pos hs]
            exact Or.inr ⟨b, rfl, rfl⟩

/-- C1 (amended): within one refresh whose extracted endpoint set is
non-empty, all discovery messages (one per observed endpoint, in
processing order) come first; the availability and state messages follow
grouped per endpoint in the same order — each endpoint contributes at
most its availability message followed at most by its state message — so
messages of different endpoints interleave and a state message of an
earlier endpoint may precede an availability message of a later one. -/
theorem refresh_publish_order (c : Caches) (nodes : List NodeSnapshot)
    (h : (nodes.map extract_onoff_endpoints_from_node).flatten ≠ []) :
    ∃ blocks : List (List Pub),
      (refresh_snapshot c nodes).1 =
        ((nodes.map extract_onoff_endpoints_from_node).flatten.map publish_ha_discovery)
          ++ blocks.flatten ∧
      List.Forall₂ (fun (ep : EndpointInfo) (blk : List Pub) =>
        ∃ a s, blk = a ++ s ∧ (a = [] ∨ a = [availability_pub ep]) ∧
          (s = [] ∨ ∃ b, ep.onoff = some b ∧ s = [state_pub ep b]))
        ((nodes.map extract_onoff_endpoints_from_node).flatten) blocks := by
  obtain ⟨blocks, hflat, hall⟩ :=
    publish_loop_blocks ((nodes.map extract_onoff_endpoints_from_node).flatten) c
  refine ⟨blocks, ?_, hall⟩
  unfold refresh_snapshot
  dsimp only
  rw [if_neg (fun hc => h (List.isEmpty_iff.1 hc)), hflat]

/-- Witness for C1 (amended) at a single-endpoint snapshot. -/
theorem refresh_publish_order_witness :
    (([⟨1, true, [("1/6/0", true)]⟩] : List NodeSnapshot).map
        extract_onoff_endpoints_from_node).flatten ≠ [] ∧
    ∃ blocks : List (List Pub),
      (refresh_snapshot ⟨[], []⟩ [⟨1, true, [("1/6/0", true)]⟩]).1 =
        ((([⟨1, true, [("1/6/0", true)]⟩] : List NodeSnapshot).map
            extract_onoff_endpoints_from_node).flatten.map publish_ha_discovery)
          ++ blocks.flatten ∧
      List.Forall₂ (fun (ep : EndpointInfo) (blk : List Pub) =>
        ∃ a s, blk = a ++ s ∧ (a = [] ∨ a = [availability_pub ep]) ∧
          (s = [] ∨ ∃ b, ep.onoff = some b ∧ s = [state_pub ep b]))
        ((([⟨1, true, [("1/6/0", true)]⟩] : List NodeSnapshot).map
            extract_onoff_endpoints_from_node).flatten) blocks :=
  ⟨by decide, refresh_publish_order ⟨[], []⟩ [⟨1, true, [("1/6/0", true)]⟩] (by decide)⟩

/-! ## C4 -/

theorem keyEp_eq_some (kv : String × Bool) (ep : Int) :
    keyEp kv = some ep ↔
      ∃ att : Int, parse_attr_key kv.1 = some (ep, ONOFF_CLUSTER_ID, att) := by
  unfold keyEp
  cases hp : parse_attr_key kv.1 with
  | none => simp
  | some t =>
    obtain ⟨ep', cl, att⟩ := t
    dsimp only
    by_cases h6 : cl = ONOFF_CLUSTER_ID
    · subst h6
      rw [if_pos rfl]
      simp
    · rw [if_neg h6]
      simp [h6]

theorem filterMap_onoff_fusion (attrs : List (String × Bool)) (ep : Int) :
    ((attrs.filterMap onoffWrite).filter (fun w => w.1 = ep)).map (fun w => w.2) =
      attrs.filterMap (fun kv =>
        if parse_attr_key kv.1 = some (ep, ONOFF_CLUSTER_ID, ONOFF_ATTRIBUTE_ID)
        then some kv.2 else none) := by
  induction attrs with
  | nil => rfl
  | cons kv rest ih =>
    cases hp : parse_attr_key kv.1 with
    | none =>
      have h1 : onoffWrite kv = none := by
        unfold onoffWrite
        rw [hp]
      have h2 : (if parse_attr_key kv.1 = some (ep, ONOFF_CLUSTER_ID, ONOFF_ATTRIBUTE_ID)
          then some kv.2 else (none : Option Bool)) = none := by
        rw [hp]
        simp
      rw [List.filterMap_cons, List.filterMap_cons]
      rw [h1, h2]
      exact ih
    | some t =>
      obtain ⟨ep', cl, att⟩ := t
      by_cases h6 : cl = ONOFF_CLUSTER_ID ∧ att = ONOFF_ATTRIBUTE_ID
      · obtain ⟨h61, h62⟩ := h6
        subst h61 h62
        have h1 : onoffWrite kv = some (ep', kv.2) := by
          unfold onoffWrite
          rw [hp]
          dsimp only
          rw [if_pos ⟨rfl, rfl⟩]
        by_cases hep : ep' = ep
        · subst hep
          have h2 : (if parse_attr_key kv.1 = some (ep', ONOFF_CLUSTER_ID, ONOFF_ATTRIBUTE_ID)
              then some kv.2 else (none : Option Bool)) = some kv.2 := by
            rw [hp, if_pos rfl]
          rw [List.filterMap_cons, List.filterMap_cons]
          rw [h1, h2]
          dsimp only
          rw [List.filter_cons_of_pos (by simp), List.map_cons, ih]
        · have h2 : (if parse_attr_key kv.1 = some (ep, ONOFF_CLUSTER_ID, ONOFF_ATTRIBUTE_ID)
              then some kv.2 else (none : Option Bool)) = none := by
            rw [hp, if_neg (by simp [hep])]
          rw [List.filterMap_cons, List.filterMap_cons]
          rw [h1, h2]
          dsimp only
          rw [List.filter_cons_of_neg (by simp [hep])]
          exact ih
      · have h1 : onoffWrite kv = none := by
          unfold onoffWrite
          rw [hp]
          dsimp only
          rw [if_neg h6]
        have h2 : (if parse_attr_key kv.1 = some (ep, ONOFF_CLUSTER_ID, ONOFF_ATTRIBUTE_ID)
            then some kv.2 else (none : Option Bool)) = none := by
          rw [hp, if_neg (by
            intro hc
            simp only [Option.some.injEq, Prod.mk.injEq] at hc
            exact h6 ⟨hc.2.1, hc.2.2⟩)]
        rw [List.filterMap_cons, List.filterMap_cons]
        rw [h1, h2]
        exact ih

theorem sortedNub_sorted (l : List Int) : List.Sorted (· ≤ ·) (sortedNub l) :=
  List.sorted_insertionSort _ _

theorem sortedNub_nodup (l : List Int) : (sortedNub l).Nodup :=
  ((List.perm_insertionSort _ _).nodup_iff).2 (List.nodup_dedup l)

theorem sortedNub_mem (l : List Int) (x : Int) : x ∈ sortedNub l ↔ x ∈ l :=
  ((List.perm_insertionSort _ _).mem_iff).trans List.mem_dedup

set_option maxRecDepth 4000 in
/-- C4 (counterexample): the keys "1/6/0" and "01/6/0" parse to the same
attribute triple, and the later write wins, so although the snapshot's
"1/6/0" attribute holds `true`, the extracted record for endpoint 1
carries `onOff = false`. -/
theorem extract_alias_key_overrides :
    extract_onoff_endpoints_from_node ⟨1, true, [("1/6/0", true), ("01/6/0", false)]⟩ =
      [⟨1, 1, true, some false⟩] ∧
    ((([("1/6/0", true), ("01/6/0", false)] : List (String × Bool)).find?
        (fun kv => kv.1 = "1/6/0")).map (fun kv => kv.2)) = some true ∧
    parse_attr_key "01/6/0" = parse_attr_key "1/6/0" := by
  refine ⟨by decide, by decide, by decide⟩

set_option maxRecDepth 4000 in
/-- C4 (amended): extraction yields exactly one record per endpoint id
appearing in some attribute key with cluster id 6, in strictly ascending
endpoint-id order, carrying the node's id and availability, with onOff
equal to the value of the last attribute in the map whose key parses to
`(ep, 6, 0)` when any is present and unknown otherwise (non-canonical
numeric renderings such as "01" parse to the same endpoint, so such a
key can supply or override the value); the spec's concrete example
yields exactly one record, endpoint 1, onOff = true. -/
theorem extract_characterization (node : NodeSnapshot) :
    List.Sorted (· < ·)
      ((extract_onoff_endpoints_from_node node).map (fun r => r.endpoint)) ∧
    (∀ ep : Int,
      (∃ r ∈ extract_onoff_endpoints_from_node node, r.endpoint = ep) ↔
      (∃ kv ∈ node.attributes, ∃ att : Int,
        parse_attr_key kv.1 = some (ep, ONOFF_CLUSTER_ID, att))) ∧
    (∀ r ∈ extract_onoff_endpoints_from_node node,
      r.node_id = node.node_id ∧ r.available = node.available ∧
      r.onoff = lastOnOffAt node.attributes r.endpoint) ∧
    extract_onoff_endpoints_from_node
        ⟨5, true, [("1/6/0", true), ("1/6/1", false), ("2/3/0", true)]⟩ =
      [⟨5, 1, true, some true⟩] := by
  refine ⟨?_, ?_, ?_, by decide⟩
  · unfold extract_onoff_endpoints_from_node
    dsimp only
    rw [List.map_map]
    have hid : (fun r => EndpointInfo.endpoint r) ∘
        (fun ep => (⟨node.node_id, ep, node.available,
          lookupOnOff (scanAttrs node.attributes ([], [])).2 ep⟩ : EndpointInfo)) =
        fun ep => ep := rfl
    rw [hid, List.map_id']
    exact (sortedNub_sorted _).lt_of_le (sortedNub_nodup _)
  · intro ep
    unfold extract_onoff_endpoints_from_node
    dsimp only
    constructor
    · rintro ⟨r, hr, hrep⟩
      rw [List.mem_map] at hr
      obtain ⟨ep', hep', rfl⟩ := hr
      rw [show (⟨node.node_id, ep', node.available,
          lookupOnOff (scanAttrs node.attributes ([], [])).2 ep'⟩ :
            EndpointInfo).endpoint = ep' from rfl] at hrep
      subst hrep
      rw [sortedNub_mem, scanAttrs_eps, List.nil_append, List.mem_filterMap] at hep'
      obtain ⟨kv, hkv, hkey⟩ := hep'
      obtain ⟨att, hp⟩ := (keyEp_eq_some kv _).1 hkey
      exact ⟨kv, hkv, att, hp⟩
    · rintro ⟨kv, hkv, att, hp⟩
      have hmem : ep ∈ sortedNub (scanAttrs node.attributes ([], [])).1 := by
        rw [sortedNub_mem, scanAttrs_eps, List.nil_append, List.mem_filterMap]
        exact ⟨kv, hkv, (keyEp_eq_some kv ep).2 ⟨att, hp⟩⟩
      exact ⟨_, List.mem_map_of_mem _ hmem, rfl⟩
  · intro r hr
    unfold extract_onoff_endpoints_from_node at hr
    dsimp only at hr
    rw [List.mem_map] at hr
    obtain ⟨ep, hep, rfl⟩ := hr
    refine ⟨rfl, rfl, ?_⟩
    show lookupOnOff (scanAttrs node.attributes ([], [])).2 ep =
      lastOnOffAt node.attributes ep
    rw [scanAttrs_st, List.append_nil]
    unfold lookupOnOff lastOnOffAt
    rw [find?_reverse_eq_getLast?_filter, ← List.getLast?_map, filterMap_onoff_fusion]

set_option maxRecDepth 4000 in
/-- Witness for C4 (amended) at the specification's concrete example. -/
theorem extract_characterization_witness :
    (⟨5, 1, true, some true⟩ : EndpointInfo) ∈ extract_onoff_endpoints_from_node
        ⟨5, true, [("1/6/0", true), ("1/6/1", false), ("2/3/0", true)]⟩ ∧
    ((⟨5, 1, true, some true⟩ : EndpointInfo).node_id =
        (⟨5, true, [("1/6/0", true), ("1/6/1", false), ("2/3/0", true)]⟩ :
          NodeSnapshot).node_id ∧
     (⟨5, 1, true, some true⟩ : EndpointInfo).available =
        (⟨5, true, [("1/6/0", true), ("1/6/1", false), ("2/3/0", true)]⟩ :
          NodeSnapshot).available ∧
     (⟨5, 1, true, some true⟩ : EndpointInfo).onoff =
        lastOnOffAt (⟨5, true, [("1/6/0", true), ("1/6/1", false), ("2/3/0", true)]⟩ :
          NodeSnapshot).attributes
          (⟨5, 1, true, some true⟩ : EndpointInfo).endpoint) :=
  ⟨by decide,
   (extract_characterization
       ⟨5, true, [("1/6/0", true), ("1/6/1", false), ("2/3/0", true)]⟩).2.2.1
     ⟨5, 1, true, some true⟩ (by decide)⟩
